import Mathlib

/-!
Shallow embedding of the token lifecycle manager (src/services/token.service.ts)
and the request metrics collector (src/services/metrics.service.ts) of the
linkedin-mcpserver repository, together with theorems settling the frozen
claims about them.

Modelling conventions:
- TypeScript `string | null` and `number | null` fields become `Option String`
  and `Option Int`; the JS truthiness checks on them (`!this.accessToken`,
  `this.tokenExpiry ? _ : _`) test presence of the field, which is how the
  service uses them (it never stores an empty string or the timestamp 0).
- JS numbers carrying millisecond response times are modelled as `ℚ` (the
  arithmetic performed on them here is exact in every claim instance);
  timestamps are modelled as `ℤ` milliseconds.
- The `await axios.post` call is modelled by a `FetchOutcome` parameter: the
  outcome the token endpoint would deliver for this call. `success` carries
  the parsed response body, `failure` covers a network error or a non-2xx
  response (both reject the axios promise). The response field `expires_in`
  is modelled as always being a number, matching the endpoint contract.
- A thrown exception is modelled as an explicit error value in the result
  record; `GetTokenResult.notAuthThrown` models the NotAuthenticatedError
  throw of getAccessToken.
- An async function body runs synchronously up to its first `await`, so a
  fire-and-forget fetchToken that throws before its awaited endpoint call
  (missing client credentials, or no refresh token for the refresh_token
  grant) runs its catch block — including resetTokens() — before control
  returns to the caller; getAccessToken models that synchronous prefix.
-/

namespace LinkedinMcp

/-- Credential record owned by TokenService: fields accessToken,
refreshToken and tokenExpiry of the class. -/
structure TokenState where
  accessToken : Option String
  refreshToken : Option String
  tokenExpiry : Option Int
deriving Repr, DecidableEq

/-- Client configuration as surfaced by AuthConfig.getClientId and
AuthConfig.getClientSecret (absent when the env vars are not set). -/
structure AuthConfig where
  clientId : Option String
  clientSecret : Option String
deriving Repr, DecidableEq

/-- Parsed JSON body of a 2xx token-endpoint response:
access_token, refresh_token (optional) and expires_in (seconds). -/
structure TokenResponse where
  access_token : Option String
  refresh_token : Option String
  expires_in : Int
deriving Repr, DecidableEq

/-- Outcome of the awaited `axios.post` to the token endpoint: a parsed 2xx
response, or a rejection (network error or non-2xx status) with its
message. -/
inductive FetchOutcome where
  | success (resp : TokenResponse)
  | failure (msg : String)
deriving Repr, DecidableEq

/-- OAuth grant type passed to fetchToken. -/
inductive GrantType where
  | client_credentials
  | refresh_token
deriving Repr, DecidableEq

/-- EXPIRY_THRESHOLD = 5 * 60 * 1000 milliseconds. -/
def EXPIRY_THRESHOLD : Int := 5 * 60 * 1000

/-- resetTokens(): sets accessToken, refreshToken and tokenExpiry to null. -/
def resetTokens (_s : TokenState) : TokenState := ⟨none, none, none⟩

/-- Result of one fetchToken call: the state after the call, the message of
the thrown error if it threw, and how many HTTP calls reached the token
endpoint (0 or 1). -/
structure FetchResult where
  state : TokenState
  error : Option String
  endpointCalls : Nat
deriving Repr, DecidableEq

/-- fetchToken(grantType): checks client credentials, for the refresh_token
grant requires a held refresh token, performs the endpoint call, and on
success stores access_token, keeps the old refresh token unless the response
supplied one (`??`), and sets tokenExpiry = Date.now() + expires_in * 1000.
Every throw path runs the catch block: resetTokens() then rethrow wrapped as
an Authentication failed error. -/
def fetchToken (s : TokenState) (cfg : AuthConfig) (grantType : GrantType)
    (outcome : FetchOutcome) (now : Int) : FetchResult :=
  match cfg.clientId, cfg.clientSecret with
  | some _, some _ =>
    if grantType = GrantType.refresh_token ∧ s.refreshToken = none then
      ⟨resetTokens s, some "Authentication failed: No refresh token available.", 0⟩
    else
      match outcome with
      | FetchOutcome.success resp =>
        ⟨⟨resp.access_token,
          resp.refresh_token.orElse (fun _ => s.refreshToken),
          some (now + resp.expires_in * 1000)⟩,
         none, 1⟩
      | FetchOutcome.failure msg =>
        ⟨resetTokens s, some ("Authentication failed: " ++ msg), 1⟩
  | _, _ =>
    ⟨resetTokens s,
     some "Authentication failed: Client credentials not configured. Cannot refresh token without LINKEDIN_CLIENT_ID and LINKEDIN_CLIENT_SECRET.",
     0⟩

/-- hasValidToken(): true if an access token is held and (no expiry recorded,
or Date.now() < tokenExpiry). -/
def hasValidToken (s : TokenState) (now : Int) : Bool :=
  s.accessToken.isSome &&
    (match s.tokenExpiry with
     | some expiry => decide (now < expiry)
     | none => true)

/-- isTokenExpiringSoon(): true if an expiry is recorded and it is within
EXPIRY_THRESHOLD of Date.now(). -/
def isTokenExpiringSoon (s : TokenState) (now : Int) : Bool :=
  match s.tokenExpiry with
  | some expiry => decide (expiry - now < EXPIRY_THRESHOLD)
  | none => false

/-- Result of one authenticate() call: the state after the call, the thrown
error if any, the number of token-endpoint calls made, and the grant type
passed to fetchToken when a fetch was performed. -/
structure AuthResult where
  state : TokenState
  error : Option String
  endpointCalls : Nat
  grantUsed : Option GrantType
deriving Repr, DecidableEq

/-- authenticate(): no-op when hasValidToken(); otherwise fetches with grant
refresh_token when a refresh token is held, else client_credentials. The
awaited fetchToken error propagates to the caller. -/
def authenticate (s : TokenState) (cfg : AuthConfig) (outcome : FetchOutcome)
    (now : Int) : AuthResult :=
  if hasValidToken s now then ⟨s, none, 0, none⟩
  else
    let g := if s.refreshToken.isSome then GrantType.refresh_token
             else GrantType.client_credentials
    let r := fetchToken s cfg g outcome now
    ⟨r.state, r.error, r.endpointCalls, some g⟩

/-- Result of one getAccessToken() call. `notAuthThrown = true` models the
throw of the Authentication required error at entry. Otherwise `returned`
is the value of `this.accessToken` at the `return` statement — the held
token, unless the background refresh failed before its first await, in
which case its catch block and resetTokens() ran synchronously before the
return and the freshly cleared field (JS null, here `none`) is returned.
`state` is the credential state once the fire-and-forget refresh, if one
was triggered, has settled; `backgroundError` is the error that refresh
produced, which the `.catch` handler only logs. -/
structure GetTokenResult where
  returned : Option String
  state : TokenState
  backgroundError : Option String
  notAuthThrown : Bool
deriving Repr, DecidableEq

/-- getAccessToken(): throws when no access token is held. Otherwise, when
the token is expiring soon it fires a background fetchToken with the
refresh_token grant whose failure is caught and only logged. The fetchToken
body runs synchronously up to its first await (the endpoint call, the only
path with an endpoint call); when it throws before that await — missing
client credentials, or no refresh token for the refresh_token grant, both
recognisable as `endpointCalls = 0` with an error — resetTokens() has
already run when `return this.accessToken` executes, so the cleared field
is returned; in every other case the held token is returned. -/
def getAccessToken (s : TokenState) (cfg : AuthConfig) (outcome : FetchOutcome)
    (now : Int) : GetTokenResult :=
  match s.accessToken with
  | none => ⟨none, s, none, true⟩
  | some tok =>
    if isTokenExpiringSoon s now then
      let r := fetchToken s cfg GrantType.refresh_token outcome now
      if r.endpointCalls = 0 ∧ r.error.isSome then
        ⟨r.state.accessToken, r.state, r.error, false⟩
      else
        ⟨some tok, r.state, r.error, false⟩
    else ⟨some tok, s, none, false⟩

/-! ### Metrics collector (src/services/metrics.service.ts) -/

/-- The fixed closed set of metric categories (types/metrics.ts). -/
inductive MetricCategory where
  | search
  | profile
  | job
  | message
  | connection
  | auth
  | other
deriving Repr, DecidableEq

/-- The categories in the declaration order of the record literals of the
class, which is the iteration order of Object.values / Object.keys. -/
def allCategories : List MetricCategory :=
  [MetricCategory.search, MetricCategory.profile, MetricCategory.job,
   MetricCategory.message, MetricCategory.connection, MetricCategory.auth,
   MetricCategory.other]

/-- Mutable state of MetricsService: requestCounts, lastRequestTimestamps and
responseTimes, each a record keyed by category. -/
structure MetricsState where
  requestCounts : MetricCategory → Nat
  lastRequestTimestamps : MetricCategory → Option Int
  responseTimes : MetricCategory → List ℚ

/-- The initial state of the service: all counters 0, all timestamps null,
all histories empty. -/
def initialMetrics : MetricsState :=
  ⟨fun _ => 0, fun _ => none, fun _ => []⟩

/-- DEFAULT_HISTORY_SIZE = 100. -/
def DEFAULT_HISTORY_SIZE : Nat := 100

/-- The static categoryMapping table, in its insertion order. -/
def categoryMapping : List (String × MetricCategory) :=
  [("/search/people", MetricCategory.search),
   ("/people", MetricCategory.profile),
   ("/jobs", MetricCategory.job),
   ("/messages", MetricCategory.message),
   ("/connections", MetricCategory.connection),
   ("/me", MetricCategory.profile),
   ("/networkSizes", MetricCategory.connection),
   ("/auth", MetricCategory.auth)]

/-- First entry of maximal key length of a list of table entries. This is
the head of the list stably sorted by descending key length, which is what
`.sort((a, b) => b.length - a.length)[0]` computes. -/
def pickLongest : List (String × MetricCategory) → Option (String × MetricCategory)
  | [] => none
  | kv :: rest =>
    match pickLongest rest with
    | none => some kv
    | some best => if best.1.length > kv.1.length then some best else some kv

/-- JS `endpoint.startsWith(pre)`: character-level prefix test, stated on
the underlying character lists of the two strings. -/
def jsStartsWith (endpoint pre : String) : Bool :=
  pre.data.isPrefixOf endpoint.data

/-- The table entries whose key is a prefix of the endpoint:
`Object.keys(this.categoryMapping).filter((p) => endpoint.startsWith(p))`
kept together with their bound categories. -/
def matchingEntries (endpoint : String) : List (String × MetricCategory) :=
  categoryMapping.filter (fun kv => jsStartsWith endpoint kv.1)

/-- getCategoryFromEndpoint: keep the table keys that are prefixes of the
endpoint, take the one of greatest length (first in table order on equal
lengths), default to the other category. -/
def getCategoryFromEndpoint (endpoint : String) : MetricCategory :=
  match pickLongest (matchingEntries endpoint) with
  | some kv => kv.2
  | none => MetricCategory.other

/-- The history update inside recordRequest: push the new sample, then
shift the oldest one out if the length exceeds DEFAULT_HISTORY_SIZE. -/
def pushWindow (l : List ℚ) (x : ℚ) : List ℚ :=
  if (l ++ [x]).length > DEFAULT_HISTORY_SIZE then (l ++ [x]).tail else l ++ [x]

/-- recordRequest(endpoint, responseTimeMs): resolve the category, increment
its counter, stamp Date.now(), and push the sample into its history with
FIFO eviction. Other categories are untouched. -/
def recordRequest (s : MetricsState) (endpoint : String) (responseTimeMs : ℚ)
    (now : Int) : MetricsState :=
  let category := getCategoryFromEndpoint endpoint
  { requestCounts := fun c =>
      if c = category then s.requestCounts c + 1 else s.requestCounts c,
    lastRequestTimestamps := fun c =>
      if c = category then some now else s.lastRequestTimestamps c,
    responseTimes := fun c =>
      if c = category then pushWindow (s.responseTimes c) responseTimeMs
      else s.responseTimes c }

/-- One recorded request: the endpoint called, the elapsed time, and the
value of Date.now() at recording time. -/
structure RequestEvent where
  endpoint : String
  responseTimeMs : ℚ
  now : Int

/-- Folding a sequence of recordRequest calls over a state. -/
def recordAll (s : MetricsState) (evs : List RequestEvent) : MetricsState :=
  evs.foldl (fun st ev => recordRequest st ev.endpoint ev.responseTimeMs ev.now) s

/-- Math.round: round to the nearest integer, halves toward positive
infinity. -/
def jsRound (q : ℚ) : Int := Int.floor (q + 1/2)

/-- getPercentile(sortedValues, percentile): index = (p/100)*(n-1); return
the element there when floor and ceil agree, otherwise the rounded linear
interpolation between the floor and ceil elements. -/
def getPercentile (sortedValues : List ℚ) (percentile : ℚ) : ℚ :=
  if sortedValues.length = 0 then 0
  else if sortedValues.length = 1 then sortedValues.getD 0 0
  else
    let index : ℚ := percentile / 100 * ((sortedValues.length : ℚ) - 1)
    let lower : Int := Int.floor index
    let upper : Int := Int.ceil index
    if lower = upper then sortedValues.getD lower.toNat 0
    else
      let weight : ℚ := index - (lower : ℚ)
      ((jsRound (sortedValues.getD lower.toNat 0 * (1 - weight)
        + sortedValues.getD upper.toNat 0 * weight) : Int) : ℚ)

/-- The ascending numeric sort `[...times].sort((a, b) => a - b)`. -/
def sortTimes (l : List ℚ) : List ℚ := List.insertionSort (· ≤ ·) l

/-- Derived per-category statistics record (types/metrics.ts MetricData). -/
structure MetricData where
  requestCount : Nat
  lastRequestTimestamp : Option Int
  averageResponseTime : ℚ
  p50ResponseTime : ℚ
  p90ResponseTime : ℚ
  p95ResponseTime : ℚ
  p99ResponseTime : ℚ
  minResponseTime : ℚ
  maxResponseTime : ℚ
deriving Repr, DecidableEq

/-- getMetricsForCategory(category): zeroed statistics when the history is
empty (the counter and timestamp still reflect all-time activity);
otherwise mean, percentiles over a sorted copy, and the sorted endpoints. -/
def getMetricsForCategory (s : MetricsState) (category : MetricCategory) : MetricData :=
  let times := s.responseTimes category
  if times.length = 0 then
    ⟨s.requestCounts category, s.lastRequestTimestamps category, 0, 0, 0, 0, 0, 0, 0⟩
  else
    let sortedTimes := sortTimes times
    ⟨s.requestCounts category,
     s.lastRequestTimestamps category,
     ((jsRound (times.sum / (times.length : ℚ)) : Int) : ℚ),
     getPercentile sortedTimes 50,
     getPercentile sortedTimes 90,
     getPercentile sortedTimes 95,
     getPercentile sortedTimes 99,
     sortedTimes.getD 0 0,
     sortedTimes.getD (sortedTimes.length - 1) 0⟩

/-- Complete metrics snapshot: the overall record plus one per category. -/
structure DetailedMetrics where
  overall : MetricData
  byCategory : MetricCategory → MetricData

/-- `Math.max(...nonNullTimestamps)` followed by `|| null`. An empty input
gives -Infinity in JS; that case reaches the result only when a history is
non-empty while every timestamp is null, which no sequence of recordRequest
calls produces, and is modelled as absent. A maximum of exactly 0 is falsy
in JS and collapses to null. -/
def jsMaxOrNull (l : List Int) : Option Int :=
  match l.max? with
  | none => none
  | some m => if m = 0 then none else some m

/-- getDetailedMetrics(): overall statistics over the concatenation of all
histories (record-literal order), total request count, and the maximum
non-null timestamp; plus the per-category breakdown. -/
def getDetailedMetrics (s : MetricsState) : DetailedMetrics :=
  let allTimes : List ℚ := (allCategories.map s.responseTimes).flatten
  let sortedAllTimes := sortTimes allTimes
  let totalRequests := (allCategories.map s.requestCounts).sum
  let lastTimestamp :=
    jsMaxOrNull ((allCategories.map s.lastRequestTimestamps).filterMap id)
  let overall : MetricData :=
    if allTimes.length > 0 then
      ⟨totalRequests,
       lastTimestamp,
       ((jsRound (allTimes.sum / (allTimes.length : ℚ)) : Int) : ℚ),
       getPercentile sortedAllTimes 50,
       getPercentile sortedAllTimes 90,
       getPercentile sortedAllTimes 95,
       getPercentile sortedAllTimes 99,
       sortedAllTimes.getD 0 0,
       sortedAllTimes.getD (sortedAllTimes.length - 1) 0⟩
    else
      ⟨totalRequests,
       if totalRequests > 0 then lastTimestamp else none,
       0, 0, 0, 0, 0, 0, 0⟩
  ⟨overall, fun c => getMetricsForCategory s c⟩

/-- resetMetrics(): for every category, zero the counter, clear the
timestamp and empty the history. -/
def resetMetrics (_s : MetricsState) : MetricsState :=
  ⟨fun _ => 0, fun _ => none, fun _ => []⟩

/-! ### Helper lemmas -/

theorem hasValidToken_false_of_fetch_condition {s : TokenState} {now : Int}
    (h : s.accessToken = none ∨ ∃ e, s.tokenExpiry = some e ∧ e ≤ now) :
    hasValidToken s now = false := by
  rcases h with h | ⟨e, he, hle⟩
  · simp [hasValidToken, h]
  · simp [hasValidToken, he]
    intro _
    omega

theorem hasValidToken_true {s : TokenState} {now : Int}
    (htok : s.accessToken.isSome)
    (hexp : s.tokenExpiry = none ∨ ∃ e, s.tokenExpiry = some e ∧ now < e) :
    hasValidToken s now = true := by
  rcases hexp with h | ⟨e, he, hlt⟩
  · simp [hasValidToken, htok, h]
  · simp [hasValidToken, htok, he]
    omega

/-! ### Claims about the token service -/

/-- C2: when an access token is present and (expiresAt is absent or
now < expiresAt), authenticate() is an idempotent no-op: it returns without
error, makes zero token-endpoint calls, passes no grant to fetchToken, and
leaves the whole credential unchanged; a second authenticate() call on the
resulting state again makes zero token-endpoint calls and changes
nothing. -/
theorem c2_authenticate_valid_token_noop (s : TokenState)
    (cfg cfg2 : AuthConfig) (outcome outcome2 : FetchOutcome) (now : Int)
    (htok : s.accessToken.isSome)
    (hexp : s.tokenExpiry = none ∨ ∃ e, s.tokenExpiry = some e ∧ now < e) :
    authenticate s cfg outcome now = ⟨s, none, 0, none⟩ ∧
    authenticate (authenticate s cfg outcome now).state cfg2 outcome2 now
      = ⟨s, none, 0, none⟩ := by
  have hv := hasValidToken_true htok hexp
  constructor
  · simp [authenticate, hv]
  · simp [authenticate, hv]

/-- Witness for C2 at a concrete still-valid credential. -/
theorem c2_witness :
    authenticate ⟨some "tok", none, some 1000⟩ ⟨none, none⟩
        (FetchOutcome.failure "boom") 0
      = ⟨⟨some "tok", none, some 1000⟩, none, 0, none⟩ ∧
    authenticate (authenticate ⟨some "tok", none, some 1000⟩ ⟨none, none⟩
        (FetchOutcome.failure "boom") 0).state ⟨none, none⟩
        (FetchOutcome.failure "boom") 0
      = ⟨⟨some "tok", none, some 1000⟩, none, 0, none⟩ :=
  c2_authenticate_valid_token_noop ⟨some "tok", none, some 1000⟩ ⟨none, none⟩
    ⟨none, none⟩ (FetchOutcome.failure "boom") (FetchOutcome.failure "boom") 0
    (by decide) (Or.inr ⟨1000, rfl, by decide⟩)

/-- C7: whenever authenticate() decides to fetch (no token held, or an
expiry is recorded and now is at or past it), the fetch uses the
refresh_token grant exactly when a refresh token is held and
client_credentials otherwise; with client credentials configured and a 2xx
response, exactly one endpoint call is made, no error is thrown, the
response access_token is stored, the refresh token is replaced only when
the response supplied one and kept otherwise, and the expiry becomes
now + expires_in seconds (stored in milliseconds). -/
theorem c7_fetch_grant_selection_and_success_update (s : TokenState)
    (cfg : AuthConfig) (resp : TokenResponse) (now : Int) (cid csec : String)
    (hfetch : s.accessToken = none ∨ ∃ e, s.tokenExpiry = some e ∧ e ≤ now)
    (hcid : cfg.clientId = some cid) (hcsec : cfg.clientSecret = some csec) :
    (authenticate s cfg (FetchOutcome.success resp) now).grantUsed
      = some (if s.refreshToken.isSome then GrantType.refresh_token
              else GrantType.client_credentials) ∧
    (authenticate s cfg (FetchOutcome.success resp) now).endpointCalls = 1 ∧
    (authenticate s cfg (FetchOutcome.success resp) now).error = none ∧
    (authenticate s cfg (FetchOutcome.success resp) now).state
      = ⟨resp.access_token,
         resp.refresh_token.orElse (fun _ => s.refreshToken),
         some (now + resp.expires_in * 1000)⟩ ∧
    (resp.refresh_token = none →
      (authenticate s cfg (FetchOutcome.success resp) now).state.refreshToken
        = s.refreshToken) ∧
    (∀ rt, resp.refresh_token = some rt →
      (authenticate s cfg (FetchOutcome.success resp) now).state.refreshToken
        = some rt) := by
  have hv := hasValidToken_false_of_fetch_condition hfetch
  have key : authenticate s cfg (FetchOutcome.success resp) now =
      ⟨⟨resp.access_token, resp.refresh_token.orElse (fun _ => s.refreshToken),
         some (now + resp.expires_in * 1000)⟩, none, 1,
       some (if s.refreshToken.isSome then GrantType.refresh_token
             else GrantType.client_credentials)⟩ := by
    cases hrt : s.refreshToken <;>
      simp [authenticate, hv, hrt, fetchToken, hcid, hcsec]
  refine ⟨by rw [key], by rw [key], by rw [key], by rw [key], ?_, ?_⟩
  · intro hresp
    rw [key]
    simp [hresp, Option.orElse]
  · intro rt hresp
    rw [key]
    simp [hresp, Option.orElse]

/-- Witness for C7: an expired credential holding a refresh token is
refreshed with the refresh_token grant and the response is stored. -/
theorem c7_witness :
    (authenticate ⟨some "old", some "r0", some 1000⟩ ⟨some "id", some "sec"⟩
        (FetchOutcome.success ⟨some "new", none, 3600⟩) 5000).grantUsed
      = some (if (some "r0" : Option String).isSome then GrantType.refresh_token
              else GrantType.client_credentials) ∧
    (authenticate ⟨some "old", some "r0", some 1000⟩ ⟨some "id", some "sec"⟩
        (FetchOutcome.success ⟨some "new", none, 3600⟩) 5000).endpointCalls = 1 ∧
    (authenticate ⟨some "old", some "r0", some 1000⟩ ⟨some "id", some "sec"⟩
        (FetchOutcome.success ⟨some "new", none, 3600⟩) 5000).error = none ∧
    (authenticate ⟨some "old", some "r0", some 1000⟩ ⟨some "id", some "sec"⟩
        (FetchOutcome.success ⟨some "new", none, 3600⟩) 5000).state
      = ⟨some "new", (none : Option String).orElse (fun _ => some "r0"),
         some (5000 + 3600 * 1000)⟩ ∧
    ((none : Option String) = none →
      (authenticate ⟨some "old", some "r0", some 1000⟩ ⟨some "id", some "sec"⟩
        (FetchOutcome.success ⟨some "new", none, 3600⟩) 5000).state.refreshToken
      = some "r0") ∧
    (∀ rt, (none : Option String) = some rt →
      (authenticate ⟨some "old", some "r0", some 1000⟩ ⟨some "id", some "sec"⟩
        (FetchOutcome.success ⟨some "new", none, 3600⟩) 5000).state.refreshToken
      = some rt) :=
  c7_fetch_grant_selection_and_success_update
    ⟨some "old", some "r0", some 1000⟩ ⟨some "id", some "sec"⟩
    ⟨some "new", none, 3600⟩ 5000 "id" "sec"
    (Or.inr ⟨1000, rfl, by decide⟩) rfl rfl

/-- Counterexample to C6 as stated: a foreground fetch whose 2xx response
is missing access_token is not treated as a failure. With a refresh token
held and an invalid current token, authenticate() stores the absent
access_token, keeps the old refresh token, throws nothing, and resets
nothing — contradicting "all credential fields are cleared and an
AuthenticationError wrapping the cause is thrown". -/
theorem c6_counterexample :
    (authenticate ⟨none, some "r0", none⟩ ⟨some "id", some "sec"⟩
        (FetchOutcome.success ⟨none, none, 3600⟩) 0).error = none ∧
    (authenticate ⟨none, some "r0", none⟩ ⟨some "id", some "sec"⟩
        (FetchOutcome.success ⟨none, none, 3600⟩) 0).state.refreshToken
      = some "r0" := by
  constructor <;> rfl

/-- C6 amended: for every foreground fetch performed by authenticate() that
fails — network error, non-2xx response, or missing client credentials —
all credential fields are cleared and an error wrapping the cause (message
Authentication failed: ...) is thrown to the caller; afterwards
getAccessToken() throws (returns none here), even if a token existed before
the failed call. A 2xx response missing access_token is not a failure: it
is stored as an absent token without a throw. -/
theorem c6_foreground_failure_clears_and_throws (s : TokenState)
    (cfg cfg2 : AuthConfig) (outcome outcome2 : FetchOutcome) (now now2 : Int)
    (hnv : hasValidToken s now = false)
    (hfail : (cfg.clientId = none ∨ cfg.clientSecret = none) ∨
             ∃ msg, outcome = FetchOutcome.failure msg) :
    (authenticate s cfg outcome now).state = ⟨none, none, none⟩ ∧
    (authenticate s cfg outcome now).error.isSome = true ∧
    (∀ msg cid csec, outcome = FetchOutcome.failure msg →
      cfg.clientId = some cid → cfg.clientSecret = some csec →
      (authenticate s cfg outcome now).error
        = some ("Authentication failed: " ++ msg)) ∧
    (getAccessToken (authenticate s cfg outcome now).state cfg2 outcome2
        now2).returned = none := by
  have key : (authenticate s cfg outcome now).state = ⟨none, none, none⟩ ∧
      (authenticate s cfg outcome now).error.isSome = true ∧
      (∀ msg cid csec, outcome = FetchOutcome.failure msg →
        cfg.clientId = some cid → cfg.clientSecret = some csec →
        (authenticate s cfg outcome now).error
          = some ("Authentication failed: " ++ msg)) := by
    rcases hfail with hcred | ⟨msg, hmsg⟩
    · cases hcid : cfg.clientId with
      | none =>
        refine ⟨?_, ?_, ?_⟩ <;>
          cases hrt : s.refreshToken <;>
            simp [authenticate, hnv, hrt, fetchToken, hcid, resetTokens]
      | some cid =>
        cases hcsec : cfg.clientSecret with
        | none =>
          refine ⟨?_, ?_, ?_⟩ <;>
            cases hrt : s.refreshToken <;>
              simp [authenticate, hnv, hrt, fetchToken, hcid, hcsec, resetTokens]
        | some csec =>
          rcases hcred with h | h
          · rw [hcid] at h
            exact absurd h (by simp)
          · rw [hcsec] at h
            exact absurd h (by simp)
    · subst hmsg
      cases hcid : cfg.clientId with
      | none =>
        refine ⟨?_, ?_, ?_⟩ <;>
          cases hrt : s.refreshToken <;>
            simp [authenticate, hnv, hrt, fetchToken, hcid, resetTokens]
      | some cid =>
        cases hcsec : cfg.clientSecret with
        | none =>
          refine ⟨?_, ?_, ?_⟩ <;>
            cases hrt : s.refreshToken <;>
              simp [authenticate, hnv, hrt, fetchToken, hcid, hcsec, resetTokens]
        | some csec =>
          refine ⟨?_, ?_, ?_⟩ <;>
            cases hrt : s.refreshToken <;>
              simp [authenticate, hnv, hrt, fetchToken, hcid, hcsec, resetTokens]
  refine ⟨key.1, key.2.1, key.2.2, ?_⟩
  rw [key.1]
  rfl

/-- Witness for C6 amended: a failed network fetch over an expired
credential clears everything, surfaces the wrapped error, and leaves the
next getAccessToken() throwing. -/
theorem c6_witness :
    (authenticate ⟨some "old", none, some 1000⟩ ⟨some "id", some "sec"⟩
        (FetchOutcome.failure "socket hang up") 5000).state
      = ⟨none, none, none⟩ ∧
    (authenticate ⟨some "old", none, some 1000⟩ ⟨some "id", some "sec"⟩
        (FetchOutcome.failure "socket hang up") 5000).error.isSome = true ∧
    (∀ msg cid csec,
      FetchOutcome.failure "socket hang up" = FetchOutcome.failure msg →
      (some "id" : Option String) = some cid →
      (some "sec" : Option String) = some csec →
      (authenticate ⟨some "old", none, some 1000⟩ ⟨some "id", some "sec"⟩
          (FetchOutcome.failure "socket hang up") 5000).error
        = some ("Authentication failed: " ++ msg)) ∧
    (getAccessToken (authenticate ⟨some "old", none, some 1000⟩
        ⟨some "id", some "sec"⟩ (FetchOutcome.failure "socket hang up")
        5000).state ⟨none, none⟩ (FetchOutcome.failure "x") 5000).returned
      = none :=
  c6_foreground_failure_clears_and_throws ⟨some "old", none, some 1000⟩
    ⟨some "id", some "sec"⟩ ⟨none, none⟩ (FetchOutcome.failure "socket hang up")
    (FetchOutcome.failure "x") 5000 5000 (by decide)
    (Or.inr ⟨"socket hang up", rfl⟩)

/-- Counterexample to C1 as stated: with a held token inside the expiry
threshold and a failing background refresh, the credential does not remain
unchanged — the failed refresh resets every field, so a subsequent
getAccessToken() throws instead of returning the same token. -/
theorem c1_counterexample :
    (getAccessToken ⟨some "tok", some "r0", some 1000⟩ ⟨some "id", some "sec"⟩
        (FetchOutcome.failure "network down") 900).returned = some "tok" ∧
    (getAccessToken ⟨some "tok", some "r0", some 1000⟩ ⟨some "id", some "sec"⟩
        (FetchOutcome.failure "network down") 900).state.accessToken = none ∧
    (getAccessToken (getAccessToken ⟨some "tok", some "r0", some 1000⟩
        ⟨some "id", some "sec"⟩ (FetchOutcome.failure "network down")
        900).state ⟨some "id", some "sec"⟩ (FetchOutcome.failure "network down")
        901).returned = none := by
  refine ⟨rfl, rfl, rfl⟩

theorem fetchToken_sync_failure (s : TokenState) (cfg : AuthConfig)
    (outcome : FetchOutcome) (now : Int)
    (h : cfg.clientId = none ∨ cfg.clientSecret = none ∨ s.refreshToken = none) :
    (fetchToken s cfg GrantType.refresh_token outcome now).state
      = ⟨none, none, none⟩ ∧
    (fetchToken s cfg GrantType.refresh_token outcome now).endpointCalls = 0 ∧
    (fetchToken s cfg GrantType.refresh_token outcome now).error.isSome
      = true := by
  rcases h with h | h | h
  · cases hsec : cfg.clientSecret <;>
      simp [fetchToken, h, hsec, resetTokens]
  · cases hid : cfg.clientId <;>
      simp [fetchToken, h, hid, resetTokens]
  · cases hid : cfg.clientId with
    | none => simp [fetchToken, hid, resetTokens]
    | some cid =>
      cases hsec : cfg.clientSecret with
      | none => simp [fetchToken, hid, hsec, resetTokens]
      | some csec => simp [fetchToken, hid, hsec, h, resetTokens]

theorem fetchToken_async_calls (s : TokenState) (cfg : AuthConfig)
    (outcome : FetchOutcome) (now : Int) (cid csec rt : String)
    (hcid : cfg.clientId = some cid) (hcsec : cfg.clientSecret = some csec)
    (hrt : s.refreshToken = some rt) :
    (fetchToken s cfg GrantType.refresh_token outcome now).endpointCalls
      = 1 := by
  cases outcome <;> simp [fetchToken, hcid, hcsec, hrt]

theorem getAccessToken_not_soon (s : TokenState) (cfg : AuthConfig)
    (outcome : FetchOutcome) (now : Int) (tok : String)
    (htok : s.accessToken = some tok)
    (hsoon : isTokenExpiringSoon s now = false) :
    getAccessToken s cfg outcome now = ⟨some tok, s, none, false⟩ := by
  rw [getAccessToken, htok]
  simp [hsoon]

theorem getAccessToken_sync_failure (s : TokenState) (cfg : AuthConfig)
    (outcome : FetchOutcome) (now : Int) (tok : String)
    (htok : s.accessToken = some tok)
    (hsoon : isTokenExpiringSoon s now = true)
    (hsync : cfg.clientId = none ∨ cfg.clientSecret = none ∨
             s.refreshToken = none) :
    getAccessToken s cfg outcome now
      = ⟨none, ⟨none, none, none⟩,
         (fetchToken s cfg GrantType.refresh_token outcome now).error,
         false⟩ := by
  obtain ⟨hstate, hcalls, herr⟩ := fetchToken_sync_failure s cfg outcome now hsync
  rw [getAccessToken, htok]
  simp only [hsoon, if_true]
  rw [if_pos ⟨hcalls, herr⟩, hstate]

theorem getAccessToken_async (s : TokenState) (cfg : AuthConfig)
    (outcome : FetchOutcome) (now : Int) (tok cid csec rt : String)
    (htok : s.accessToken = some tok)
    (hsoon : isTokenExpiringSoon s now = true)
    (hcid : cfg.clientId = some cid) (hcsec : cfg.clientSecret = some csec)
    (hrt : s.refreshToken = some rt) :
    getAccessToken s cfg outcome now
      = ⟨some tok, (fetchToken s cfg GrantType.refresh_token outcome now).state,
         (fetchToken s cfg GrantType.refresh_token outcome now).error,
         false⟩ := by
  have hcalls := fetchToken_async_calls s cfg outcome now cid csec rt hcid hcsec hrt
  rw [getAccessToken, htok]
  simp only [hsoon, if_true]
  rw [if_neg]
  intro hc
  rw [hcalls] at hc
  exact one_ne_zero hc.1

/-- C1 amended: when an access token is held and getAccessToken() triggers
a background refresh whose awaited endpoint call fails (network error or
non-2xx response), the error is not thrown to the caller — this call still
returns the old token and the failure is only recorded for logging — but
the failed refresh clears the whole credential, so a subsequent
getAccessToken() call throws instead of returning the same token. (When
the background refresh instead fails before its first await, the
synchronous resetTokens() makes this call itself return the cleared field;
that regime is covered by the C10 theorem.) -/
theorem c1_background_refresh_failure_swallowed_but_clears (s : TokenState)
    (cfg cfg2 : AuthConfig) (outcome2 : FetchOutcome) (now now2 : Int)
    (tok rt cid csec msg : String)
    (htok : s.accessToken = some tok)
    (hsoon : isTokenExpiringSoon s now = true)
    (hrt : s.refreshToken = some rt)
    (hcid : cfg.clientId = some cid) (hcsec : cfg.clientSecret = some csec) :
    (getAccessToken s cfg (FetchOutcome.failure msg) now).returned
      = some tok ∧
    (getAccessToken s cfg (FetchOutcome.failure msg) now).notAuthThrown
      = false ∧
    (getAccessToken s cfg (FetchOutcome.failure msg) now).backgroundError
      = some ("Authentication failed: " ++ msg) ∧
    (getAccessToken s cfg (FetchOutcome.failure msg) now).state
      = ⟨none, none, none⟩ ∧
    (getAccessToken (getAccessToken s cfg (FetchOutcome.failure msg) now).state
        cfg2 outcome2 now2).notAuthThrown = true ∧
    (getAccessToken (getAccessToken s cfg (FetchOutcome.failure msg) now).state
        cfg2 outcome2 now2).returned = none := by
  have hfetch : fetchToken s cfg GrantType.refresh_token
      (FetchOutcome.failure msg) now
      = ⟨⟨none, none, none⟩, some ("Authentication failed: " ++ msg), 1⟩ := by
    simp [fetchToken, hcid, hcsec, hrt, resetTokens]
  have key := getAccessToken_async s cfg (FetchOutcome.failure msg) now
    tok cid csec rt htok hsoon hcid hcsec hrt
  rw [hfetch] at key
  refine ⟨by rw [key], by rw [key], by rw [key], by rw [key],
    ?_, ?_⟩ <;> rw [key] <;> rfl

/-- Witness for C1 amended at a concrete expiring credential with a
network failure during the awaited endpoint call of the background
refresh. -/
theorem c1_witness :
    (getAccessToken ⟨some "tok", some "r0", some 1000⟩ ⟨some "id", some "sec"⟩
        (FetchOutcome.failure "network down") 900).returned = some "tok" ∧
    (getAccessToken ⟨some "tok", some "r0", some 1000⟩ ⟨some "id", some "sec"⟩
        (FetchOutcome.failure "network down") 900).notAuthThrown = false ∧
    (getAccessToken ⟨some "tok", some "r0", some 1000⟩ ⟨some "id", some "sec"⟩
        (FetchOutcome.failure "network down") 900).backgroundError
      = some ("Authentication failed: " ++ "network down") ∧
    (getAccessToken ⟨some "tok", some "r0", some 1000⟩ ⟨some "id", some "sec"⟩
        (FetchOutcome.failure "network down") 900).state = ⟨none, none, none⟩ ∧
    (getAccessToken (getAccessToken ⟨some "tok", some "r0", some 1000⟩
        ⟨some "id", some "sec"⟩ (FetchOutcome.failure "network down")
        900).state ⟨none, none⟩ (FetchOutcome.failure "x")
        901).notAuthThrown = true ∧
    (getAccessToken (getAccessToken ⟨some "tok", some "r0", some 1000⟩
        ⟨some "id", some "sec"⟩ (FetchOutcome.failure "network down")
        900).state ⟨none, none⟩ (FetchOutcome.failure "x") 901).returned
      = none :=
  c1_background_refresh_failure_swallowed_but_clears
    ⟨some "tok", some "r0", some 1000⟩ ⟨some "id", some "sec"⟩ ⟨none, none⟩
    (FetchOutcome.failure "x") 900 901
    "tok" "r0" "id" "sec" "network down" rfl (by decide) rfl rfl rfl

/-- Counterexample to C10 as stated: a held token within the expiry
threshold whose background refresh throws before its first await (here a
refresh_token grant with no refresh token held, with client credentials
configured) makes fetchToken run resetTokens() synchronously, so the
return statement yields the freshly cleared field instead of the held
token — getAccessToken() does not return the held token even though one
was held at entry, and it does not throw either. -/
theorem c10_counterexample :
    (⟨some "tok", none, some 1000⟩ : TokenState).accessToken = some "tok" ∧
    (getAccessToken ⟨some "tok", none, some 1000⟩ ⟨some "id", some "sec"⟩
        (FetchOutcome.failure "x") 2000).returned = none ∧
    (getAccessToken ⟨some "tok", none, some 1000⟩ ⟨some "id", some "sec"⟩
        (FetchOutcome.failure "x") 2000).notAuthThrown = false := by
  refine ⟨rfl, rfl, rfl⟩

/-- C10 amended: getAccessToken() throws NotAuthenticatedError exactly when
no access token is held at entry; with a held token it never throws, and it
returns the held token — including when the recorded expiry is already in
the past — unless it triggers a background refresh that fails before its
first await (client credentials not configured, or no refresh token held):
then resetTokens() runs synchronously before the return statement and the
call returns the cleared field (null). -/
theorem c10_get_access_token_total_on_held_token (s : TokenState)
    (cfg : AuthConfig) (outcome : FetchOutcome) (now : Int) :
    ((getAccessToken s cfg outcome now).notAuthThrown = true
      ↔ s.accessToken = none) ∧
    (∀ tok, s.accessToken = some tok →
      (getAccessToken s cfg outcome now).notAuthThrown = false ∧
      (isTokenExpiringSoon s now = true →
        (cfg.clientId = none ∨ cfg.clientSecret = none ∨
          s.refreshToken = none) →
        (getAccessToken s cfg outcome now).returned = none ∧
        (getAccessToken s cfg outcome now).state = ⟨none, none, none⟩) ∧
      ((isTokenExpiringSoon s now = false ∨
        (cfg.clientId ≠ none ∧ cfg.clientSecret ≠ none ∧
          s.refreshToken ≠ none)) →
        (getAccessToken s cfg outcome now).returned = some tok)) := by
  cases htok : s.accessToken with
  | none =>
    constructor
    · simp [getAccessToken, htok]
    · intro tok h
      cases h
  | some tok0 =>
    have hnotthrow : (getAccessToken s cfg outcome now).notAuthThrown
        = false := by
      cases hsoon : isTokenExpiringSoon s now
      · rw [getAccessToken_not_soon s cfg outcome now tok0 htok hsoon]
      · by_cases hsync : cfg.clientId = none ∨ cfg.clientSecret = none ∨
            s.refreshToken = none
        · rw [getAccessToken_sync_failure s cfg outcome now tok0 htok hsoon
            hsync]
        · push_neg at hsync
          obtain ⟨cid, hcid⟩ := Option.ne_none_iff_exists'.mp hsync.1
          obtain ⟨csec, hcsec⟩ := Option.ne_none_iff_exists'.mp hsync.2.1
          obtain ⟨rt, hrt⟩ := Option.ne_none_iff_exists'.mp hsync.2.2
          rw [getAccessToken_async s cfg outcome now tok0 cid csec rt htok
            hsoon hcid hcsec hrt]
    constructor
    · rw [hnotthrow]
      simp [htok]
    · intro tok h
      cases h
      refine ⟨hnotthrow, ?_, ?_⟩
      · intro hsoon hsync
        rw [getAccessToken_sync_failure s cfg outcome now tok0 htok hsoon
          hsync]
        exact ⟨rfl, rfl⟩
      · intro hcase
        rcases hcase with hsoon | ⟨h1, h2, h3⟩
        · rw [getAccessToken_not_soon s cfg outcome now tok0 htok hsoon]
        · cases hsoon : isTokenExpiringSoon s now
          · rw [getAccessToken_not_soon s cfg outcome now tok0 htok hsoon]
          · obtain ⟨cid, hcid⟩ := Option.ne_none_iff_exists'.mp h1
            obtain ⟨csec, hcsec⟩ := Option.ne_none_iff_exists'.mp h2
            obtain ⟨rt, hrt⟩ := Option.ne_none_iff_exists'.mp h3
            rw [getAccessToken_async s cfg outcome now tok0 cid csec rt htok
              hsoon hcid hcsec hrt]

/-- Witness for C10 amended: a held token whose recorded expiry is far in
the past, with configured credentials and a held refresh token, is still
returned to the caller even though the background refresh it triggers
fails on the awaited endpoint call. -/
theorem c10_witness :
    (getAccessToken ⟨some "tok", some "r0", some 1000⟩ ⟨some "id", some "sec"⟩
        (FetchOutcome.failure "x") 999999999).returned = some "tok" :=
  ((c10_get_access_token_total_on_held_token ⟨some "tok", some "r0", some 1000⟩
      ⟨some "id", some "sec"⟩ (FetchOutcome.failure "x") 999999999).2
    "tok" rfl).2.2 (Or.inr ⟨by decide, by decide, by decide⟩)

/-! ### Claims about the metrics collector -/

theorem pickLongest_eq_none_iff (l : List (String × MetricCategory)) :
    pickLongest l = none ↔ l = [] := by
  cases l with
  | nil => simp [pickLongest]
  | cons a rest =>
    simp only [pickLongest]
    cases pickLongest rest with
    | none => simp
    | some best =>
      by_cases h : best.1.length > a.1.length <;> simp [h]

theorem pickLongest_mem_and_maximal :
    ∀ (l : List (String × MetricCategory)) (kv : String × MetricCategory),
      pickLongest l = some kv →
      kv ∈ l ∧ ∀ kv2 ∈ l, kv2.1.length ≤ kv.1.length := by
  intro l
  induction l with
  | nil => intro kv h; cases h
  | cons a rest ih =>
    intro kv h
    simp only [pickLongest] at h
    cases hrest : pickLongest rest with
    | none =>
      rw [hrest] at h
      cases h
      have hnil : rest = [] := (pickLongest_eq_none_iff rest).mp hrest
      subst hnil
      exact ⟨List.mem_cons_self _ _, by simp⟩
    | some best =>
      rw [hrest] at h
      by_cases hlen : best.1.length > a.1.length
      · simp only [hlen, if_true] at h
        cases h
        obtain ⟨hmem, hmax⟩ := ih kv hrest
        refine ⟨List.mem_cons_of_mem _ hmem, ?_⟩
        intro kv2 hkv2
        rcases List.mem_cons.mp hkv2 with h2 | h2
        · subst h2; omega
        · exact hmax kv2 h2
      · simp only [hlen, if_false] at h
        cases h
        obtain ⟨_, hmax⟩ := ih best hrest
        refine ⟨List.mem_cons_self _ _, ?_⟩
        intro kv2 hkv2
        rcases List.mem_cons.mp hkv2 with h2 | h2
        · subst h2; omega
        · have := hmax kv2 h2
          omega

/-- C5: category resolution is longest-matching-prefix lookup: when no
table key is a prefix of the endpoint the result is the other category,
and otherwise the result is the category bound to a matching entry of
maximal key length (so the tie-break is on key length, not table order);
in particular /people/abc resolves to profile and /search/people resolves
to search. -/
theorem c5_longest_prefix_category_resolution :
    getCategoryFromEndpoint "/people/abc" = MetricCategory.profile ∧
    getCategoryFromEndpoint "/search/people" = MetricCategory.search ∧
    ∀ endpoint,
      (matchingEntries endpoint = [] →
        getCategoryFromEndpoint endpoint = MetricCategory.other) ∧
      (matchingEntries endpoint ≠ [] →
        ∃ kv, kv ∈ matchingEntries endpoint ∧
          getCategoryFromEndpoint endpoint = kv.2 ∧
          ∀ kv2 ∈ matchingEntries endpoint, kv2.1.length ≤ kv.1.length) := by
  refine ⟨by decide, by decide, ?_⟩
  intro endpoint
  constructor
  · intro h
    simp [getCategoryFromEndpoint, h, pickLongest]
  · intro h
    have hsome : ∃ kv, pickLongest (matchingEntries endpoint) = some kv := by
      cases hp : pickLongest (matchingEntries endpoint) with
      | none => exact absurd ((pickLongest_eq_none_iff _).mp hp) h
      | some kv => exact ⟨kv, rfl⟩
    obtain ⟨kv, hkv⟩ := hsome
    obtain ⟨hmem, hmax⟩ := pickLongest_mem_and_maximal _ kv hkv
    exact ⟨kv, hmem, by simp [getCategoryFromEndpoint, hkv], hmax⟩

/-- Witness for C5 at an endpoint matching no table key. -/
theorem c5_witness : getCategoryFromEndpoint "/xyz" = MetricCategory.other :=
  (c5_longest_prefix_category_resolution.2.2 "/xyz").1 (by decide)

/-- C8: after resetMetrics(), every counter is zero, every timestamp is
absent and every history is empty, and getDetailedMetrics() reports
all-zero counts and absent timestamps overall and for every category. -/
theorem c8_reset_clears_all_metrics (s : MetricsState) :
    (getDetailedMetrics (resetMetrics s)).overall
      = ⟨0, none, 0, 0, 0, 0, 0, 0, 0⟩ ∧
    (∀ c, (getDetailedMetrics (resetMetrics s)).byCategory c
      = ⟨0, none, 0, 0, 0, 0, 0, 0, 0⟩) ∧
    (∀ c, (resetMetrics s).requestCounts c = 0 ∧
      (resetMetrics s).lastRequestTimestamps c = none ∧
      (resetMetrics s).responseTimes c = []) :=
  ⟨rfl, fun _ => rfl, fun _ => ⟨rfl, rfl, rfl⟩⟩

/-- The events of a record sequence that resolve to a given category. -/
def eventsFor (c : MetricCategory) (evs : List RequestEvent) : List RequestEvent :=
  evs.filter (fun ev => decide (getCategoryFromEndpoint ev.endpoint = c))

/-- The response-time samples recorded into a given category by a record
sequence, in insertion order. -/
def samplesFor (c : MetricCategory) (evs : List RequestEvent) : List ℚ :=
  (eventsFor c evs).map (fun ev => ev.responseTimeMs)

theorem pushWindow_of_le (l : List ℚ) (x : ℚ)
    (h : l.length + 1 ≤ DEFAULT_HISTORY_SIZE) :
    pushWindow l x = l ++ [x] := by
  rw [pushWindow, if_neg]
  rw [List.length_append]
  simp only [List.length_cons, List.length_nil]
  omega

theorem pushWindow_of_full (l : List ℚ) (x : ℚ)
    (h : DEFAULT_HISTORY_SIZE ≤ l.length) :
    pushWindow l x = (l ++ [x]).tail := by
  rw [pushWindow, if_pos]
  rw [List.length_append]
  simp only [List.length_cons, List.length_nil]
  omega

theorem tail_append_of_ne_nil {α : Type} (d e : List α) (h : d ≠ []) :
    (d ++ e).tail = d.tail ++ e := by
  cases d with
  | nil => exact absurd rfl h
  | cons a t => rfl

theorem foldl_pushWindow_drop (xs : List ℚ) :
    xs.foldl pushWindow [] = xs.drop (xs.length - DEFAULT_HISTORY_SIZE) := by
  induction xs using List.reverseRecOn with
  | nil => rfl
  | append_singleton xs x ih =>
    rw [List.foldl_append, List.foldl_cons, List.foldl_nil, ih]
    by_cases h : xs.length < DEFAULT_HISTORY_SIZE
    · have h0 : xs.length - DEFAULT_HISTORY_SIZE = 0 := by omega
      have h1 : (xs ++ [x]).length - DEFAULT_HISTORY_SIZE = 0 := by
        rw [List.length_append]
        simp only [List.length_cons, List.length_nil]
        omega
      rw [h0, List.drop_zero, h1, List.drop_zero]
      exact pushWindow_of_le xs x (by omega)
    · push_neg at h
      have hdlen : (xs.drop (xs.length - DEFAULT_HISTORY_SIZE)).length
          = DEFAULT_HISTORY_SIZE := by
        rw [List.length_drop]
        omega
      rw [pushWindow_of_full _ x (by omega)]
      have hne : xs.drop (xs.length - DEFAULT_HISTORY_SIZE) ≠ [] := by
        intro hnil
        rw [hnil] at hdlen
        simp [DEFAULT_HISTORY_SIZE] at hdlen
      rw [tail_append_of_ne_nil _ _ hne, List.tail_drop]
      have harith : (xs ++ [x]).length - DEFAULT_HISTORY_SIZE
          = xs.length - DEFAULT_HISTORY_SIZE + 1 := by
        rw [List.length_append]
        simp only [List.length_cons, List.length_nil]
        omega
      have hle2 : xs.length - DEFAULT_HISTORY_SIZE + 1 ≤ xs.length := by
        simp only [DEFAULT_HISTORY_SIZE] at h ⊢
        omega
      rw [harith, List.drop_append_of_le_length hle2]

theorem responseTimes_recordAll (evs : List RequestEvent) :
    ∀ (s : MetricsState) (c : MetricCategory),
      (recordAll s evs).responseTimes c
        = (samplesFor c evs).foldl pushWindow (s.responseTimes c) := by
  induction evs with
  | nil => intro s c; rfl
  | cons ev rest ih =>
    intro s c
    have hstep : recordAll s (ev :: rest)
        = recordAll (recordRequest s ev.endpoint ev.responseTimeMs ev.now) rest := rfl
    rw [hstep, ih]
    by_cases h : getCategoryFromEndpoint ev.endpoint = c
    · have hsamp : samplesFor c (ev :: rest)
          = ev.responseTimeMs :: samplesFor c rest := by
        simp [samplesFor, eventsFor, List.filter_cons, h]
      rw [hsamp, List.foldl_cons]
      congr 1
      simp [recordRequest, h]
    · have hsamp : samplesFor c (ev :: rest) = samplesFor c rest := by
        simp [samplesFor, eventsFor, List.filter_cons, h]
      rw [hsamp]
      congr 1
      have h2 : ¬(c = getCategoryFromEndpoint ev.endpoint) := fun hh => h hh.symm
      simp [recordRequest, h2]

/-- C4: for every sequence of recordRequest calls, each category history
holds at most 100 samples, and it is exactly the most recent samples routed
to that category in insertion order (strict FIFO eviction of the oldest);
in particular recording 150 samples into the job category retains exactly
the last 100, dropping the oldest 50. -/
theorem c4_history_window_fifo :
    (∀ evs c, ((recordAll initialMetrics evs).responseTimes c).length ≤ 100) ∧
    (∀ evs c, (recordAll initialMetrics evs).responseTimes c
        = (samplesFor c evs).drop ((samplesFor c evs).length - 100)) ∧
    (recordAll initialMetrics ((List.range 150).map
        (fun i : ℕ => ⟨"/jobs", (i : ℚ), 0⟩))).responseTimes MetricCategory.job
      = ((List.range 150).map (fun i : ℕ => (i : ℚ))).drop 50 := by
  have hdrop : ∀ evs c, (recordAll initialMetrics evs).responseTimes c
      = (samplesFor c evs).drop ((samplesFor c evs).length - 100) := by
    intro evs c
    rw [responseTimes_recordAll evs initialMetrics c]
    exact foldl_pushWindow_drop (samplesFor c evs)
  refine ⟨?_, hdrop, ?_⟩
  · intro evs c
    rw [hdrop evs c, List.length_drop]
    omega
  · rw [hdrop]
    have hsamp : samplesFor MetricCategory.job ((List.range 150).map
        (fun i : ℕ => ⟨"/jobs", (i : ℚ), 0⟩))
        = (List.range 150).map (fun i : ℕ => (i : ℚ)) := by
      have hfilter : ∀ a ∈ List.range 150,
          ((fun ev => decide (getCategoryFromEndpoint ev.endpoint
              = MetricCategory.job))
            ∘ (fun i : ℕ => (⟨"/jobs", (i : ℚ), 0⟩ : RequestEvent))) a
            = true := by
        intro a _
        show decide (getCategoryFromEndpoint "/jobs" = MetricCategory.job) = true
        decide
      rw [samplesFor, eventsFor, List.filter_map,
          List.filter_eq_self.mpr hfilter, List.map_map]
      rfl
    rw [hsamp, List.length_map, List.length_range]

theorem requestCounts_recordAll (evs : List RequestEvent) :
    ∀ (s : MetricsState) (c : MetricCategory),
      (recordAll s evs).requestCounts c
        = s.requestCounts c + (eventsFor c evs).length := by
  induction evs with
  | nil => intro s c; rfl
  | cons ev rest ih =>
    intro s c
    have hstep : recordAll s (ev :: rest)
        = recordAll (recordRequest s ev.endpoint ev.responseTimeMs ev.now) rest := rfl
    rw [hstep, ih]
    by_cases h : getCategoryFromEndpoint ev.endpoint = c
    · have hlen : (eventsFor c (ev :: rest)).length
          = (eventsFor c rest).length + 1 := by
        simp [eventsFor, List.filter_cons, h]
      have hcnt : (recordRequest s ev.endpoint ev.responseTimeMs ev.now).requestCounts c
          = s.requestCounts c + 1 := by
        simp [recordRequest, h]
      rw [hlen, hcnt]
      omega
    · have hlen : (eventsFor c (ev :: rest)).length = (eventsFor c rest).length := by
        simp [eventsFor, List.filter_cons, h]
      have h2 : ¬(c = getCategoryFromEndpoint ev.endpoint) := fun hh => h hh.symm
      have hcnt : (recordRequest s ev.endpoint ev.responseTimeMs ev.now).requestCounts c
          = s.requestCounts c := by
        simp [recordRequest, h2]
      rw [hlen, hcnt]

theorem lastRequestTimestamps_recordAll_foldl (evs : List RequestEvent) :
    ∀ (s : MetricsState) (c : MetricCategory),
      (recordAll s evs).lastRequestTimestamps c
        = (eventsFor c evs).foldl (fun _ ev => some ev.now)
            (s.lastRequestTimestamps c) := by
  induction evs with
  | nil => intro s c; rfl
  | cons ev rest ih =>
    intro s c
    have hstep : recordAll s (ev :: rest)
        = recordAll (recordRequest s ev.endpoint ev.responseTimeMs ev.now) rest := rfl
    rw [hstep, ih]
    by_cases h : getCategoryFromEndpoint ev.endpoint = c
    · have hev : eventsFor c (ev :: rest) = ev :: eventsFor c rest := by
        simp [eventsFor, List.filter_cons, h]
      rw [hev, List.foldl_cons]
      congr 1
      simp [recordRequest, h]
    · have hev : eventsFor c (ev :: rest) = eventsFor c rest := by
        simp [eventsFor, List.filter_cons, h]
      rw [hev]
      congr 1
      have h2 : ¬(c = getCategoryFromEndpoint ev.endpoint) := fun hh => h hh.symm
      simp [recordRequest, h2]

theorem foldl_timestamp_getLast (l : List RequestEvent) (a : Option Int) :
    l.foldl (fun _ ev => some ev.now) a
      = l.getLast?.elim a (fun ev => some ev.now) := by
  induction l using List.reverseRecOn generalizing a with
  | nil => rfl
  | append_singleton l x ih =>
    rw [List.foldl_append, List.foldl_cons, List.foldl_nil, List.getLast?_concat]
    rfl

theorem sortTimes_getD_zero_min (l : List ℚ) (h : l ≠ []) :
    (sortTimes l).getD 0 0 ∈ l ∧ ∀ x ∈ l, (sortTimes l).getD 0 0 ≤ x := by
  have hp : List.Perm (sortTimes l) l := List.perm_insertionSort (· ≤ ·) l
  have hs : List.Sorted (· ≤ ·) (sortTimes l) := List.sorted_insertionSort (· ≤ ·) l
  cases hlst : sortTimes l with
  | nil =>
    rw [hlst] at hp
    have : l = [] := by
      have := hp.length_eq
      simp at this
      exact List.length_eq_zero.mp this.symm
    exact absurd this h
  | cons a t =>
    rw [hlst] at hp hs
    rw [List.sorted_cons] at hs
    constructor
    · have : (a :: t).getD 0 0 = a := rfl
      rw [this]
      exact hp.mem_iff.mp (List.mem_cons_self a t)
    · intro x hx
      have hx2 : x ∈ a :: t := hp.mem_iff.mpr hx
      have : (a :: t).getD 0 0 = a := rfl
      rw [this]
      rcases List.mem_cons.mp hx2 with h2 | h2
      · exact le_of_eq h2.symm
      · exact hs.1 x h2

theorem sorted_le_getLast :
    ∀ (l : List ℚ), l.Sorted (· ≤ ·) → ∀ x ∈ l, ∀ (h : l ≠ []), x ≤ l.getLast h := by
  intro l
  induction l with
  | nil => intro _ x hx; exact absurd hx (List.not_mem_nil x)
  | cons a t ih =>
    intro hs x hx h
    rw [List.sorted_cons] at hs
    cases t with
    | nil =>
      have : x = a := by simpa using hx
      subst this
      exact le_of_eq rfl
    | cons b t2 =>
      rw [List.getLast_cons (by simp : b :: t2 ≠ [])]
      rcases List.mem_cons.mp hx with h2 | h2
      · subst h2
        have hmem : (b :: t2).getLast (by simp) ∈ b :: t2 :=
          List.getLast_mem (by simp)
        exact hs.1 _ hmem
      · exact ih hs.2 x h2 (by simp)

theorem sortTimes_getD_last_max (l : List ℚ) (h : l ≠ []) :
    (sortTimes l).getD ((sortTimes l).length - 1) 0 ∈ l ∧
    ∀ x ∈ l, x ≤ (sortTimes l).getD ((sortTimes l).length - 1) 0 := by
  have hp : List.Perm (sortTimes l) l := List.perm_insertionSort (· ≤ ·) l
  have hs : List.Sorted (· ≤ ·) (sortTimes l) := List.sorted_insertionSort (· ≤ ·) l
  have hne : sortTimes l ≠ [] := by
    intro hnil
    apply h
    have hlen := hp.length_eq
    rw [hnil] at hlen
    simp at hlen
    exact List.length_eq_zero.mp hlen.symm
  have hlen0 : 0 < (sortTimes l).length := by
    cases hlst : sortTimes l with
    | nil => exact absurd hlst hne
    | cons a t => simp
  have hgetD : (sortTimes l).getD ((sortTimes l).length - 1) 0
      = (sortTimes l).getLast hne := by
    rw [List.getD_eq_getElem _ _ (by omega), List.getLast_eq_getElem]
  rw [hgetD]
  constructor
  · exact hp.mem_iff.mp (List.getLast_mem hne)
  · intro x hx
    exact sorted_le_getLast (sortTimes l) hs x (hp.mem_iff.mpr hx) hne

theorem getMetricsForCategory_nonempty (s : MetricsState) (c : MetricCategory)
    (h : s.responseTimes c ≠ []) :
    getMetricsForCategory s c
      = ⟨s.requestCounts c, s.lastRequestTimestamps c,
         ((jsRound ((s.responseTimes c).sum
            / ((s.responseTimes c).length : ℚ)) : Int) : ℚ),
         getPercentile (sortTimes (s.responseTimes c)) 50,
         getPercentile (sortTimes (s.responseTimes c)) 90,
         getPercentile (sortTimes (s.responseTimes c)) 95,
         getPercentile (sortTimes (s.responseTimes c)) 99,
         (sortTimes (s.responseTimes c)).getD 0 0,
         (sortTimes (s.responseTimes c)).getD
           ((sortTimes (s.responseTimes c)).length - 1) 0⟩ := by
  rw [getMetricsForCategory, if_neg]
  intro hlen
  exact h (List.length_eq_zero.mp hlen)

/-- C9: for every record sequence and category, the reported requestCount
is the all-time number of requests routed to the category (not bounded by
the 100-sample window) and lastRequestTimestamp is the time of the most
recent such request; with an empty history the remaining fields are all
zero, and with a non-empty history the average is the arithmetic mean of
the retained samples rounded to the nearest integer and min/max are the
least and greatest retained samples (the sorted history's endpoints). -/
theorem c9_category_metrics_alltime_and_window (evs : List RequestEvent)
    (c : MetricCategory) :
    (getMetricsForCategory (recordAll initialMetrics evs) c).requestCount
      = (eventsFor c evs).length ∧
    (getMetricsForCategory (recordAll initialMetrics evs) c).lastRequestTimestamp
      = (eventsFor c evs).getLast?.elim none (fun ev => some ev.now) ∧
    ((recordAll initialMetrics evs).responseTimes c = [] →
      getMetricsForCategory (recordAll initialMetrics evs) c
        = ⟨(eventsFor c evs).length,
           (eventsFor c evs).getLast?.elim none (fun ev => some ev.now),
           0, 0, 0, 0, 0, 0, 0⟩) ∧
    ((recordAll initialMetrics evs).responseTimes c ≠ [] →
      (getMetricsForCategory (recordAll initialMetrics evs) c).averageResponseTime
        = ((jsRound (((recordAll initialMetrics evs).responseTimes c).sum
            / (((recordAll initialMetrics evs).responseTimes c).length : ℚ))
            : Int) : ℚ) ∧
      (getMetricsForCategory (recordAll initialMetrics evs) c).minResponseTime
        ∈ (recordAll initialMetrics evs).responseTimes c ∧
      (∀ x ∈ (recordAll initialMetrics evs).responseTimes c,
        (getMetricsForCategory (recordAll initialMetrics evs) c).minResponseTime
          ≤ x) ∧
      (getMetricsForCategory (recordAll initialMetrics evs) c).maxResponseTime
        ∈ (recordAll initialMetrics evs).responseTimes c ∧
      (∀ x ∈ (recordAll initialMetrics evs).responseTimes c,
        x ≤ (getMetricsForCategory (recordAll initialMetrics evs) c).maxResponseTime)) := by
  have hcount : (recordAll initialMetrics evs).requestCounts c
      = (eventsFor c evs).length := by
    rw [requestCounts_recordAll evs initialMetrics c]
    simp [initialMetrics]
  have hts : (recordAll initialMetrics evs).lastRequestTimestamps c
      = (eventsFor c evs).getLast?.elim none (fun ev => some ev.now) := by
    rw [lastRequestTimestamps_recordAll_foldl evs initialMetrics c,
        foldl_timestamp_getLast]
    rfl
  have hcount2 : ∀ s2 c2, (getMetricsForCategory s2 c2).requestCount
      = s2.requestCounts c2 := by
    intro s2 c2
    rw [getMetricsForCategory]
    split <;> rfl
  have hts2 : ∀ s2 c2, (getMetricsForCategory s2 c2).lastRequestTimestamp
      = s2.lastRequestTimestamps c2 := by
    intro s2 c2
    rw [getMetricsForCategory]
    split <;> rfl
  refine ⟨?_, ?_, ?_, ?_⟩
  · rw [hcount2, hcount]
  · rw [hts2, hts]
  · intro hempty
    rw [getMetricsForCategory, if_pos]
    · rw [hcount, hts]
    · rw [hempty]
      rfl
  · intro hne
    rw [getMetricsForCategory_nonempty _ _ hne]
    exact ⟨rfl,
      (sortTimes_getD_zero_min _ hne).1,
      (sortTimes_getD_zero_min _ hne).2,
      (sortTimes_getD_last_max _ hne).1,
      (sortTimes_getD_last_max _ hne).2⟩

/-- Witness for C9 on a one-request sequence into the job category. -/
theorem c9_witness :
    (getMetricsForCategory (recordAll initialMetrics [⟨"/jobs", 5, 77⟩])
        MetricCategory.job).requestCount
      = (eventsFor MetricCategory.job [⟨"/jobs", 5, 77⟩]).length ∧
    (getMetricsForCategory (recordAll initialMetrics [⟨"/jobs", 5, 77⟩])
        MetricCategory.job).minResponseTime
      ∈ (recordAll initialMetrics [⟨"/jobs", 5, 77⟩]).responseTimes
          MetricCategory.job := by
  have h := c9_category_metrics_alltime_and_window [⟨"/jobs", 5, 77⟩]
    MetricCategory.job
  refine ⟨h.1, ?_⟩
  have hne : (recordAll initialMetrics [⟨"/jobs", 5, 77⟩]).responseTimes
      MetricCategory.job ≠ [] := by
    intro hnil
    exact absurd hnil (by decide)
  exact (h.2.2.2 hne).2.1

/-- Percentile computation exactly as the claim words it, written from the
spec for comparison with getPercentile (which is translated from the
source): the element at index (p/100)*(n-1) when that index is integral,
otherwise the exact linear interpolation between the floor and ceil
elements weighted by the fractional part. -/
def claimPercentile (sortedValues : List ℚ) (percentile : ℚ) : ℚ :=
  let index : ℚ := percentile / 100 * ((sortedValues.length : ℚ) - 1)
  if Int.fract index = 0 then sortedValues.getD (Int.floor index).toNat 0
  else sortedValues.getD (Int.floor index).toNat 0 * (1 - Int.fract index)
    + sortedValues.getD (Int.ceil index).toNat 0 * Int.fract index

/-- The claim's percentile rule amended with the rounding the code applies
to the interpolated value. -/
def claimPercentileRounded (sortedValues : List ℚ) (percentile : ℚ) : ℚ :=
  let index : ℚ := percentile / 100 * ((sortedValues.length : ℚ) - 1)
  if Int.fract index = 0 then sortedValues.getD (Int.floor index).toNat 0
  else ((jsRound (sortedValues.getD (Int.floor index).toNat 0
      * (1 - Int.fract index)
    + sortedValues.getD (Int.ceil index).toNat 0 * Int.fract index) : Int) : ℚ)

theorem ceil_via_floor (q : ℚ) : Int.ceil q = -Int.floor (-q) := by
  rw [Int.floor_neg, neg_neg]

theorem floor_eq_ceil_iff_fract_eq_zero (q : ℚ) :
    Int.floor q = Int.ceil q ↔ Int.fract q = 0 := by
  constructor
  · intro h
    have h1 : ((Int.floor q : Int) : ℚ) ≤ q := Int.floor_le q
    have h2 : q ≤ ((Int.ceil q : Int) : ℚ) := Int.le_ceil q
    rw [← h] at h2
    have heq : q = ((Int.floor q : Int) : ℚ) := le_antisymm h2 h1
    have hsub : q - ((Int.floor q : Int) : ℚ) = 0 := sub_eq_zero.mpr heq
    rwa [Int.self_sub_floor] at hsub
  · intro h
    have hsub := Int.self_sub_floor q
    rw [h] at hsub
    have heq : q = ((Int.floor q : Int) : ℚ) := sub_eq_zero.mp hsub
    rw [heq]
    simp

/-- Counterexample to C3 as stated: for the sorted samples [0, 1] and
percentile 50 the index is 0.5, the claimed (unrounded) linear
interpolation yields 1/2, but the code applies Math.round to the
interpolated value and returns 1. -/
theorem c3_counterexample :
    getPercentile [0, 1] 50 = 1 ∧ claimPercentile [0, 1] 50 = 1/2 ∧
    (1 : ℚ) ≠ 1/2 := by
  refine ⟨?_, ?_, by norm_num⟩
  · rw [getPercentile]
    norm_num [ceil_via_floor, jsRound, Int.fract, List.getD]
  · rw [claimPercentile]
    norm_num [ceil_via_floor, jsRound, Int.fract, List.getD]

/-- C3 amended: for every non-empty sorted sample list and percentile p in
0..100, the computed percentile is the element at index (p/100)(n-1) when
that index is integral, and otherwise the linear interpolation between the
floor and ceil elements weighted by the fractional part, rounded to the
nearest integer (Math.round, halves up); in particular for samples
[10, 20, 30, 40, 50], p50 = 30 and p90 = 46. -/
theorem c3_percentile_interpolation_rounded :
    (∀ (l : List ℚ) (p : ℚ), l ≠ [] → 0 ≤ p → p ≤ 100 →
      getPercentile l p = claimPercentileRounded l p) ∧
    getPercentile [10, 20, 30, 40, 50] 50 = 30 ∧
    getPercentile [10, 20, 30, 40, 50] 90 = 46 := by
  refine ⟨?_, ?_, ?_⟩
  · intro l p hne _ _
    cases l with
    | nil => exact absurd rfl hne
    | cons a t =>
      cases t with
      | nil =>
        rw [getPercentile, claimPercentileRounded]
        norm_num [Int.fract]
      | cons b t2 =>
        rw [getPercentile, claimPercentileRounded]
        rw [if_neg (by simp), if_neg (by simp)]
        by_cases hf :
            Int.fract (p / 100 * (((a :: b :: t2).length : ℚ) - 1)) = 0
        · rw [if_pos ((floor_eq_ceil_iff_fract_eq_zero _).mpr hf), if_pos hf]
        · rw [if_neg (fun hc => hf ((floor_eq_ceil_iff_fract_eq_zero _).mp hc)),
              if_neg hf, Int.self_sub_floor]
  · rw [getPercentile]
    norm_num [ceil_via_floor, jsRound, Int.fract, List.getD]
    norm_num [show Int.toNat 2 = 2 from by simp]
  · rw [getPercentile]
    norm_num [ceil_via_floor, jsRound, Int.fract, List.getD]
    norm_num [show Int.toNat 3 = 3 from by simp, show Int.toNat 4 = 4 from by simp]

/-- Witness for C3 amended at the five-sample list and p95. -/
theorem c3_witness :
    getPercentile [10, 20, 30, 40, 50] 95
      = claimPercentileRounded [10, 20, 30, 40, 50] 95 :=
  c3_percentile_interpolation_rounded.1 [10, 20, 30, 40, 50] 95
    (by simp) (by norm_num) (by norm_num)

end LinkedinMcp
